import Mathlib

/-!
Verification of the credential-verification and access-token subsystem of
the merchant_admin backend (Go, gin + golang-jwt v5).

Embedded source files:
- internal/common/jwt.go        : getJWTSecret, Claims, GenerateToken, ParseToken
- internal/middleware (auth)    : AuthMiddleware
- internal/services/user_service.go : Login (service layer)
- internal/controllers/auth_controller.go : Login, RefreshToken (controller layer)
- internal/models/user.go       : User, IsActive

The JWT wire format (base64url JSON segments, HMAC-SHA256) and bcrypt live in
external libraries (golang-jwt/jwt/v5, x/crypto/bcrypt), not in this
repository; those layers are modelled from the spec (see the doc comments
marked `Modelled from the spec`). Everything else is translated directly
from the Go source. Strings of bytes are embedded as `List Nat`, machine
uints as `Nat`, Unix timestamps (seconds) as `Int`.
-/

deriving instance DecidableEq for Except

namespace MerchantAdmin

/-! ## Little-endian decimal digits, fuel-based so that concrete terms reduce -/

/-- Helper for `natDigits`: little-endian base-10 digits of `n`, with fuel. -/
def digAux : Nat → Nat → List Nat
  | 0, _ => []
  | fuel + 1, n => if n = 0 then [] else n % 10 :: digAux fuel (n / 10)

/-- Little-endian base-10 digits of a natural number (empty for 0). -/
def natDigits (n : Nat) : List Nat := digAux n n

/-- Value of a little-endian base-10 digit list. -/
def digVal : List Nat → Nat
  | [] => 0
  | d :: ds => d + 10 * digVal ds

theorem digAux_lt10 : ∀ fuel n x, x ∈ digAux fuel n → x < 10 := by
  intro fuel
  induction fuel with
  | zero => intro n x hx; simp [digAux] at hx
  | succ f ih =>
    intro n x hx
    by_cases h0 : n = 0
    · simp [digAux, h0] at hx
    · simp [digAux, h0] at hx
      rcases hx with hx | hx
      · exact hx ▸ Nat.mod_lt _ (by norm_num)
      · exact ih _ _ hx

theorem natDigits_lt10 {n x : Nat} (hx : x ∈ natDigits n) : x < 10 :=
  digAux_lt10 n n x hx

theorem digVal_digAux : ∀ fuel n, n ≤ fuel → digVal (digAux fuel n) = n := by
  intro fuel
  induction fuel with
  | zero => intro n hn; interval_cases n; simp [digAux, digVal]
  | succ f ih =>
    intro n hn
    by_cases h0 : n = 0
    · simp [digAux, h0, digVal]
    · have hdiv : n / 10 ≤ f := by
        have h1 : n / 10 < n := Nat.div_lt_self (Nat.pos_of_ne_zero h0) (by norm_num)
        omega
      simp only [digAux, h0, if_false, digVal, ih _ hdiv]
      omega

theorem digVal_natDigits (n : Nat) : digVal (natDigits n) = n :=
  digVal_digAux n n (Nat.le_refl n)

theorem natDigits_inj {m n : Nat} (h : natDigits m = natDigits n) : m = n := by
  have := digVal_natDigits m
  rw [h, digVal_natDigits] at this
  exact this.symm

/-! ## Separator-splitting facts used throughout the token format -/

theorem append_sep_inj {x : Nat} : ∀ {a1 a2 b1 b2 : List Nat},
    (∀ y ∈ a1, y ≠ x) → (∀ y ∈ a2, y ≠ x) →
    a1 ++ x :: b1 = a2 ++ x :: b2 → a1 = a2 ∧ b1 = b2 := by
  intro a1
  induction a1 with
  | nil =>
    intro a2 b1 b2 _ h2 heq
    cases a2 with
    | nil => simpa using heq
    | cons c cs =>
      simp only [List.nil_append, List.cons_append, List.cons.injEq] at heq
      exact absurd heq.1.symm (h2 c (by simp))
  | cons a as ih =>
    intro a2 b1 b2 h1 h2 heq
    cases a2 with
    | nil =>
      simp only [List.cons_append, List.nil_append, List.cons.injEq] at heq
      exact absurd heq.1 (h1 a (by simp))
    | cons c cs =>
      simp only [List.cons_append, List.cons.injEq] at heq
      obtain ⟨rfl, heq⟩ := heq
      obtain ⟨he, hb⟩ := ih (fun y hy => h1 y (by simp [hy]))
        (fun y hy => h2 y (by simp [hy])) heq
      exact ⟨by rw [he], hb⟩

theorem takeWhile_ne_append {s : Nat} : ∀ (a b : List Nat), (∀ y ∈ a, y ≠ s) →
    (a ++ s :: b).takeWhile (fun x => x != s) = a := by
  intro a
  induction a with
  | nil => intro b _; simp [List.takeWhile]
  | cons c cs ih =>
    intro b h
    have hc : (c != s) = true := by
      simpa using h c (by simp)
    simp only [List.cons_append, List.takeWhile_cons, hc, if_true]
    rw [ih b (fun y hy => h y (by simp [hy]))]

theorem dropWhile_ne_append {s : Nat} : ∀ (a b : List Nat), (∀ y ∈ a, y ≠ s) →
    (a ++ s :: b).dropWhile (fun x => x != s) = s :: b := by
  intro a
  induction a with
  | nil => intro b _; simp [List.dropWhile]
  | cons c cs ih =>
    intro b h
    have hc : (c != s) = true := by
      simpa using h c (by simp)
    simp only [List.cons_append, List.dropWhile_cons, hc, if_true]
    exact ih b (fun y hy => h y (by simp [hy]))

theorem dropWhile_ne_all {s : Nat} : ∀ (l : List Nat), (∀ y ∈ l, y ≠ s) →
    l.dropWhile (fun x => x != s) = [] := by
  intro l
  induction l with
  | nil => simp [List.dropWhile]
  | cons c cs ih =>
    intro h
    have hc : (c != s) = true := by
      simpa using h c (by simp)
    simp only [List.dropWhile_cons, hc, if_true]
    exact ih (fun y hy => h y (by simp [hy]))

/-! ## Token wire format and integrity tag

Modelled from the spec: the Go code signs and parses tokens through
golang-jwt/jwt/v5 (HMAC-SHA256 over base64url JSON segments), which is an
external library, not code of this repository. Per spec section 3, an
AccessToken is "an opaque string encoding Claims plus an integrity tag
computed over the encoded claims and the process secret", with the
invariant that only holders of the secret can produce a verifying tag.
We realise that contract with an executable injective encoding over byte
lists: digits are 0..9, byte 10 ends an escaped byte, byte 11 separates
fields, bytes 12/13 mark the sign of an integer field, and byte 46
(the dot) separates the encoded claims from the tag, exactly as the dot
does in a JWT compact serialization. -/

/-- The segment separator of the compact token serialization (the JWT dot). -/
def SEP : Nat := 46

/-- Modelled from the spec: escaping of the raw secret bytes into the tag
alphabet (each byte becomes its digits followed by byte 10), so that the
tag never contains the segment separator. -/
def escBytes : List Nat → List Nat
  | [] => []
  | b :: s => natDigits b ++ 10 :: escBytes s

theorem escBytes_lt11 : ∀ (s : List Nat), ∀ x ∈ escBytes s, x < 11 := by
  intro s
  induction s with
  | nil => simp [escBytes]
  | cons b bs ih =>
    intro x hx
    simp only [escBytes, List.mem_append, List.mem_cons] at hx
    rcases hx with hx | hx | hx
    · exact Nat.lt_of_lt_of_le (natDigits_lt10 hx) (by norm_num)
    · omega
    · exact ih x hx

theorem escBytes_inj : ∀ {s1 s2 : List Nat}, escBytes s1 = escBytes s2 → s1 = s2 := by
  intro s1
  induction s1 with
  | nil =>
    intro s2 h
    cases s2 with
    | nil => rfl
    | cons b bs =>
      exfalso
      simp only [escBytes] at h
      exact List.append_ne_nil_of_right_ne_nil _ (by simp) h.symm
  | cons b bs ih =>
    intro s2 h
    cases s2 with
    | nil =>
      exfalso
      simp only [escBytes] at h
      exact List.append_ne_nil_of_right_ne_nil _ (by simp) h
    | cons c cs =>
      simp only [escBytes] at h
      obtain ⟨hd, ht⟩ := append_sep_inj
        (fun y hy => Nat.ne_of_lt (natDigits_lt10 hy))
        (fun y hy => Nat.ne_of_lt (natDigits_lt10 hy)) h
      rw [natDigits_inj hd, ih ht]

/-- Modelled from the spec: the integrity tag over the encoded claims and
the process secret (HMAC-SHA256 in golang-jwt, external to this
repository). The spec requires that a tag only matches for the exact
(encoded claims, secret) pair that produced it; we use a length-prefixed
injective pairing, which satisfies exactly that. -/
def mac (msg secret : List Nat) : List Nat :=
  natDigits msg.length ++ 11 :: (msg ++ 11 :: escBytes secret)

theorem mac_mem {msg secret : List Nat} :
    ∀ y ∈ mac msg secret, y < 14 ∨ y ∈ msg := by
  intro y hy
  simp only [mac, List.mem_append, List.mem_cons] at hy
  rcases hy with hy | hy | hy | hy | hy
  · exact Or.inl (Nat.lt_of_lt_of_le (natDigits_lt10 hy) (by norm_num))
  · omega
  · exact Or.inr hy
  · omega
  · exact Or.inl (Nat.lt_of_lt_of_le (escBytes_lt11 _ y hy) (by norm_num))

theorem mac_inj_left {m1 m2 s : List Nat} (h : mac m1 s = mac m2 s) : m1 = m2 := by
  simp only [mac] at h
  obtain ⟨hlen, hrest⟩ := append_sep_inj
    (fun y hy => by have := natDigits_lt10 hy; omega)
    (fun y hy => by have := natDigits_lt10 hy; omega) h
  exact List.append_inj_left hrest (natDigits_inj hlen)

theorem mac_inj_right {m s1 s2 : List Nat} (h : mac m s1 = mac m s2) : s1 = s2 := by
  simp only [mac] at h
  have h2 := List.append_cancel_left h
  have h3 : m ++ 11 :: escBytes s1 = m ++ 11 :: escBytes s2 := by
    injection h2
  have h4 := List.append_cancel_left h3
  have h5 : escBytes s1 = escBytes s2 := by
    injection h4
  exact escBytes_inj h5

/-! ## Claims and their field encoding (the JSON payload, spec-modelled) -/

/-- The custom JWT payload of internal/common/jwt.go: `UserID uint` plus the
registered claims set there (ExpiresAt, IssuedAt, NotBefore, as Unix
seconds). -/
structure Claims where
  UserID : Nat
  ExpiresAt : Int
  IssuedAt : Int
  NotBefore : Int
deriving DecidableEq, Repr

/-- Modelled from the spec: serialization of one signed-integer claim field
(part of the JSON payload encoding done by golang-jwt, external to this
repository). -/
def encInt (i : Int) : List Nat :=
  if 0 ≤ i then 12 :: natDigits i.toNat else 13 :: natDigits (-i).toNat

/-- Modelled from the spec: decoder for one signed-integer claim field. -/
def decInt : List Nat → Option Int
  | 12 :: ds => some (Int.ofNat (digVal ds))
  | 13 :: ds => some (-(Int.ofNat (digVal ds)))
  | _ => none

theorem decInt_encInt (i : Int) : decInt (encInt i) = some i := by
  by_cases h : 0 ≤ i
  · simp only [encInt, if_pos h, decInt, digVal_natDigits, Int.ofNat_eq_natCast,
      Option.some.injEq]
    omega
  · simp only [encInt, if_neg h, decInt, digVal_natDigits, Int.ofNat_eq_natCast,
      Option.some.injEq]
    omega

theorem encInt_lt14 (i : Int) : ∀ x ∈ encInt i, x < 14 := by
  intro x hx
  by_cases h : 0 ≤ i
  · simp only [encInt, if_pos h, List.mem_cons] at hx
    rcases hx with hx | hx
    · omega
    · exact Nat.lt_of_lt_of_le (natDigits_lt10 hx) (by norm_num)
  · simp only [encInt, if_neg h, List.mem_cons] at hx
    rcases hx with hx | hx
    · omega
    · exact Nat.lt_of_lt_of_le (natDigits_lt10 hx) (by norm_num)

theorem encInt_ne11 (i : Int) : ∀ x ∈ encInt i, x ≠ 11 := by
  intro x hx
  by_cases h : 0 ≤ i
  · simp only [encInt, if_pos h, List.mem_cons] at hx
    rcases hx with hx | hx
    · omega
    · have := natDigits_lt10 hx; omega
  · simp only [encInt, if_neg h, List.mem_cons] at hx
    rcases hx with hx | hx
    · omega
    · have := natDigits_lt10 hx; omega

/-- Modelled from the spec: serialization of the whole Claims payload
(user id field, then the three registered time fields, separated by
byte 11). -/
def encClaims (c : Claims) : List Nat :=
  natDigits c.UserID ++ 11 ::
    (encInt c.ExpiresAt ++ 11 :: (encInt c.IssuedAt ++ 11 :: encInt c.NotBefore))

theorem encClaims_lt14 (c : Claims) : ∀ x ∈ encClaims c, x < 14 := by
  intro x hx
  simp only [encClaims, List.mem_append, List.mem_cons] at hx
  rcases hx with hx | hx | hx | hx | hx | hx | hx
  · exact Nat.lt_of_lt_of_le (natDigits_lt10 hx) (by norm_num)
  · omega
  · exact encInt_lt14 _ x hx
  · omega
  · exact encInt_lt14 _ x hx
  · omega
  · exact encInt_lt14 _ x hx

/-- Splits a field-separated payload at the first byte 11. -/
def fieldSplit (l : List Nat) : List Nat × List Nat :=
  (l.takeWhile (fun x => x != 11), l.dropWhile (fun x => x != 11))

/-- Modelled from the spec: decoder for the Claims payload (the JSON
parsing done by golang-jwt, external to this repository). -/
def decClaims (l : List Nat) : Option Claims :=
  match fieldSplit l with
  | (f0, 11 :: r1) =>
    match fieldSplit r1 with
    | (f1, 11 :: r2) =>
      match fieldSplit r2 with
      | (f2, 11 :: f3) =>
        match decInt f1, decInt f2, decInt f3 with
        | some e, some ia, some nb => some ⟨digVal f0, e, ia, nb⟩
        | _, _, _ => none
      | _ => none
    | _ => none
  | _ => none

theorem fieldSplit_clean {a b : List Nat} (h : ∀ y ∈ a, y ≠ 11) :
    fieldSplit (a ++ 11 :: b) = (a, 11 :: b) := by
  simp only [fieldSplit, takeWhile_ne_append a b h, dropWhile_ne_append a b h]

theorem decClaims_encClaims (c : Claims) : decClaims (encClaims c) = some c := by
  have h0 : ∀ y ∈ natDigits c.UserID, y ≠ 11 :=
    fun y hy => Nat.ne_of_lt (Nat.lt_of_lt_of_le (natDigits_lt10 hy) (by norm_num))
  simp only [decClaims, encClaims, fieldSplit_clean h0,
    fieldSplit_clean (encInt_ne11 c.ExpiresAt), fieldSplit_clean (encInt_ne11 c.IssuedAt),
    decInt_encInt, digVal_natDigits]

/-! ## Compact token serialization: payload SEP tag -/

/-- Splits a compact token at its single separator byte into
(encoded claims, tag); fails when there is not exactly one separator,
mirroring the fixed segment count that golang-jwt requires of the compact
serialization. -/
def splitTok (t : List Nat) : Option (List Nat × List Nat) :=
  match t.dropWhile (fun x => x != SEP) with
  | 46 :: rest => if rest.contains 46 then none else some (t.takeWhile (fun x => x != SEP), rest)
  | _ => none

theorem splitTok_clean {a b : List Nat} (ha : ∀ y ∈ a, y ≠ 46) (hb : ∀ y ∈ b, y ≠ 46) :
    splitTok (a ++ 46 :: b) = some (a, b) := by
  have hbc : b.contains 46 = false := by
    simp only [List.contains_eq_any_beq, List.any_eq_false]
    intro y hy
    simpa using (hb y hy).symm
  simp only [splitTok, SEP, dropWhile_ne_append a b ha, takeWhile_ne_append a b ha, hbc,
    Bool.false_eq_true, if_false]

theorem splitTok_none {l : List Nat} (h : ∀ y ∈ l, y ≠ 46) : splitTok l = none := by
  simp only [splitTok, SEP, dropWhile_ne_all l h]

theorem splitTok_dup {a b : List Nat} (ha : ∀ y ∈ a, y ≠ 46) (hb : 46 ∈ b) :
    splitTok (a ++ 46 :: b) = none := by
  have hbc : b.contains 46 = true := by
    simp only [List.contains_eq_any_beq, List.any_eq_true]
    exact ⟨46, hb, by simp⟩
  simp only [splitTok, SEP, dropWhile_ne_append a b ha, hbc, if_true]

/-! ## internal/common/jwt.go -/

/-- Byte view of a Go string (the model uses byte lists for wire data). -/
def strBytes (s : String) : List Nat := s.data.map (fun ch => ch.toNat)

/-- getJWTSecret of internal/common/jwt.go: the JWT_SECRET environment
variable when non-empty, else the fixed fallback literal. The argument is
the value `os.Getenv` returns (empty string when unset). -/
def getJWTSecret (env : String) : String :=
  if env ≠ "" then env else "KJH87sd98HDS8df79SDF98sd8F7SDF8sd7FSD8fsd8F7sd8f7"

/-- JwtSecret of internal/common/jwt.go: the process-wide secret bytes,
fixed at startup from the environment. -/
def JwtSecret (env : String) : List Nat := strBytes (getJWTSecret env)

/-- The Claims record GenerateToken builds: ExpiresAt is now plus 24 hours
(86400 seconds), IssuedAt and NotBefore are now. -/
def genClaims (now : Int) (userID : Nat) : Claims :=
  { UserID := userID, ExpiresAt := now + 86400, IssuedAt := now, NotBefore := now }

/-- GenerateToken of internal/common/jwt.go: builds the Claims for
`userID` at time `now` and returns the signed compact token
(encoded claims, separator, integrity tag under `secret`). -/
def GenerateToken (now : Int) (secret : List Nat) (userID : Nat) : List Nat :=
  encClaims (genClaims now userID) ++ 46 :: mac (encClaims (genClaims now userID)) secret

/-- The error taxonomy of token verification (golang-jwt v5:
ErrTokenMalformed, ErrTokenSignatureInvalid, ErrTokenExpired,
ErrTokenNotValidYet). -/
inductive TokenError
  | MalformedToken
  | InvalidSignature
  | Expired
  | NotYetValid
deriving DecidableEq, Repr

/-- ParseToken of internal/common/jwt.go: parses the compact serialization,
decodes the claims, verifies the integrity tag against `secret`, then
validates the time bounds at time `now`, in the order golang-jwt v5 uses
(structure, claims decoding, signature, expiry, not-before). The expiry
and not-before comparisons are modelled from the spec (section 4.2:
Expired iff now is strictly greater than ExpiresAt, NotYetValid iff now is
strictly earlier than NotBefore); the comparison code itself lives in the
external golang-jwt library. -/
def ParseToken (now : Int) (secret : List Nat) (tokenString : List Nat) :
    Except TokenError Claims :=
  match splitTok tokenString with
  | none => .error .MalformedToken
  | some (enc, tag) =>
    match decClaims enc with
    | none => .error .MalformedToken
    | some c =>
      if mac enc secret ≠ tag then .error .InvalidSignature
      else if c.ExpiresAt < now then .error .Expired
      else if now < c.NotBefore then .error .NotYetValid
      else .ok c

theorem encClaims_ne46 (c : Claims) : ∀ y ∈ encClaims c, y ≠ 46 := by
  intro y hy
  have := encClaims_lt14 c y hy
  omega

theorem mac_encClaims_ne46 (c : Claims) (s : List Nat) :
    ∀ y ∈ mac (encClaims c) s, y ≠ 46 := by
  intro y hy
  rcases mac_mem y hy with h | h
  · omega
  · exact encClaims_ne46 c y h

theorem splitTok_generate (now : Int) (secret : List Nat) (userID : Nat) :
    splitTok (GenerateToken now secret userID) =
      some (encClaims (genClaims now userID), mac (encClaims (genClaims now userID)) secret) :=
  splitTok_clean (encClaims_ne46 _) (mac_encClaims_ne46 _ _)

theorem parse_generate_same_secret (uid : Nat) (secret : List Nat) (tIssue tVerify : Int) :
    ParseToken tVerify secret (GenerateToken tIssue secret uid) =
      (if tIssue + 86400 < tVerify then .error .Expired
       else if tVerify < tIssue then .error .NotYetValid
       else .ok (genClaims tIssue uid)) := by
  simp only [ParseToken, splitTok_generate, decClaims_encClaims]
  rw [if_neg (by simp)]
  simp only [genClaims]

/-- Claim C1: for every subject identifier, parsing a token right after
issuing it for that identifier succeeds and the returned Claims carry that
identifier, for every verification time from issuance up to issuance plus
the 24-hour lifetime. -/
theorem C1_issue_verify_roundTrip (uid : Nat) (secret : List Nat) (tIssue tVerify : Int)
    (h1 : tIssue ≤ tVerify) (h2 : tVerify ≤ tIssue + 86400) :
    ParseToken tVerify secret (GenerateToken tIssue secret uid) =
      .ok (genClaims tIssue uid) ∧ (genClaims tIssue uid).UserID = uid := by
  rw [parse_generate_same_secret, if_neg (by omega), if_neg (by omega)]
  exact ⟨rfl, rfl⟩

/-- Witness for C1 at uid 7, secret bytes [1, 2], issuance time 5,
verification time 100. -/
theorem C1_issue_verify_roundTrip_witness :
    ParseToken 100 [1, 2] (GenerateToken 5 [1, 2] 7) = .ok (genClaims 5 7) ∧
      (genClaims 5 7).UserID = 7 :=
  C1_issue_verify_roundTrip 7 [1, 2] 5 100 (by norm_num) (by norm_num)

/-- Claim C5: a properly issued token whose embedded ExpiresAt lies strictly
before the verification time fails with Expired, whatever the distance past
expiry. -/
theorem C5_expired_token (uid : Nat) (secret : List Nat) (tIssue tVerify : Int)
    (h : tIssue + 86400 < tVerify) :
    ParseToken tVerify secret (GenerateToken tIssue secret uid) = .error .Expired := by
  rw [parse_generate_same_secret, if_pos h]

/-- Witness for C5: a token issued at time 0 is rejected as Expired at
time 86401 (one second past expiry). -/
theorem C5_expired_token_witness :
    ParseToken 86401 [3] (GenerateToken 0 [3] 1) = .error .Expired :=
  C5_expired_token 1 [3] 0 86401 (by norm_num)

/-- Claim C6: a token issued under one secret fails verification under any
different secret with InvalidSignature, so rotating the process secret
invalidates all previously issued tokens. -/
theorem C6_wrong_secret (uid : Nat) (tIssue tVerify : Int) (s1 s2 : List Nat)
    (h : s1 ≠ s2) :
    ParseToken tVerify s2 (GenerateToken tIssue s1 uid) = .error .InvalidSignature := by
  have hsplit : splitTok (GenerateToken tIssue s1 uid) =
      some (encClaims (genClaims tIssue uid), mac (encClaims (genClaims tIssue uid)) s1) :=
    splitTok_clean (encClaims_ne46 _) (mac_encClaims_ne46 _ _)
  simp only [ParseToken, hsplit, decClaims_encClaims]
  rw [if_pos (fun heq => h (mac_inj_right heq).symm)]

/-- Witness for C6: the secret [1] issues a token that the secret [2]
rejects with InvalidSignature. -/
theorem C6_wrong_secret_witness :
    ParseToken 0 [2] (GenerateToken 0 [1] 9) = .error .InvalidSignature :=
  C6_wrong_secret 9 0 0 [1] [2] (by decide)

theorem set_ne_of_ne {l : List Nat} : ∀ {i : Nat} (hi : i < l.length) {v : Nat},
    v ≠ l.get ⟨i, hi⟩ → l.set i v ≠ l := by
  induction l with
  | nil => intro i hi; simp at hi
  | cons a as ih =>
    intro i hi v hv heq
    cases i with
    | zero =>
      injection heq with h1 _
      exact hv h1
    | succ n =>
      injection heq with _ h2
      have hn : n < as.length := by simpa using hi
      exact ih hn hv h2

theorem parse_set_one (secret : List Nat) (c : Claims) (enc tag : List Nat)
    (hne : ∀ y ∈ enc, y ≠ 46) (htne : ∀ y ∈ tag, y ≠ 46)
    (hdec : decClaims enc = some c) (htag : mac enc secret = tag)
    (i v : Nat) (hi : i < (enc ++ 46 :: tag).length)
    (hv : v ≠ (enc ++ 46 :: tag).get ⟨i, hi⟩) (now : Int) :
    ParseToken now secret ((enc ++ 46 :: tag).set i v) = .error .InvalidSignature ∨
      ParseToken now secret ((enc ++ 46 :: tag).set i v) = .error .MalformedToken := by
  rw [List.get_eq_getElem] at hv
  have hlen : (enc ++ 46 :: tag).length = enc.length + 1 + tag.length := by
    simp [List.length_append]; omega
  rcases Nat.lt_trichotomy i enc.length with hlt | heqi | hgt
  · -- mutation inside the encoded claims segment
    have hv' : v ≠ enc[i] := by
      rwa [List.getElem_append_left hlt] at hv
    rw [List.set_append_left i v hlt]
    by_cases hv46 : v = 46
    · -- the mutated byte becomes a second separator: structurally invalid
      subst hv46
      right
      rw [List.set_eq_take_cons_drop 46 hlt, List.append_assoc, List.cons_append]
      have hdup : splitTok (enc.take i ++ 46 :: (enc.drop (i + 1) ++ 46 :: tag)) = none :=
        splitTok_dup (fun y hy => hne y (List.mem_of_mem_take hy)) (by simp)
      simp [ParseToken, hdup]
    · -- same shape, different claims bytes: tag no longer matches
      have hne2 : ∀ y ∈ enc.set i v, y ≠ 46 := fun y hy =>
        (List.mem_or_eq_of_mem_set hy).elim (hne y) (fun h => h ▸ hv46)
      have hsplit := splitTok_clean hne2 htne
      cases hdec2 : decClaims (enc.set i v) with
      | none =>
        right
        simp [ParseToken, hsplit, hdec2]
      | some c2 =>
        left
        have hcond : mac (enc.set i v) secret ≠ tag := by
          intro heqq
          rw [← htag] at heqq
          exact set_ne_of_ne hlt hv' (mac_inj_left heqq)
        simp only [ParseToken, hsplit, hdec2]
        rw [if_pos hcond]
  · -- the separator itself is overwritten: no separator remains
    right
    subst heqi
    have hv46 : v ≠ 46 := by
      rw [List.getElem_append_right (Nat.le_refl enc.length)] at hv
      simp only [Nat.sub_self, List.getElem_cons_zero] at hv
      exact hv
    rw [List.set_append_right enc.length v (Nat.le_refl enc.length), Nat.sub_self]
    have hnone : splitTok (enc ++ v :: tag) = none := by
      apply splitTok_none
      intro y hy
      rcases List.mem_append.mp hy with hy | hy
      · exact hne y hy
      · rcases List.mem_cons.mp hy with hy | hy
        · exact hy ▸ hv46
        · exact htne y hy
    simp [ParseToken, hnone]
  · -- mutation inside the tag segment
    obtain ⟨j, hj2⟩ : ∃ j, i - enc.length = j + 1 := ⟨i - enc.length - 1, by omega⟩
    have hj : j < tag.length := by omega
    have hv' : v ≠ tag[j] := by
      rw [List.getElem_append_right (Nat.le_of_lt hgt)] at hv
      simp only [hj2, List.getElem_cons_succ] at hv
      exact hv
    rw [List.set_append_right i v (Nat.le_of_lt hgt), hj2, List.set_cons_succ]
    by_cases hv46 : v = 46
    · -- the mutated tag byte becomes a second separator
      subst hv46
      right
      have hmem : 46 ∈ tag.set j 46 := List.mem_set tag _ hj 46
      simp [ParseToken, splitTok_dup hne hmem]
    · -- tag changed, recomputed tag unchanged: signature mismatch
      left
      have htne2 : ∀ y ∈ tag.set j v, y ≠ 46 := fun y hy =>
        (List.mem_or_eq_of_mem_set hy).elim (htne y) (fun h => h ▸ hv46)
      have hsplit := splitTok_clean hne htne2
      have hcond : mac enc secret ≠ tag.set j v := by
        intro heqq
        rw [htag] at heqq
        exact set_ne_of_ne hj hv' heqq.symm
      simp only [ParseToken, hsplit, hdec]
      rw [if_pos hcond]

/-- Claim C7: changing exactly one byte of an issued token, at any position
of the encoded claims, the separator, or the tag, makes ParseToken fail
with InvalidSignature or MalformedToken, at every verification time. -/
theorem C7_single_change_rejected (uid : Nat) (secret : List Nat) (tIssue now : Int)
    (i v : Nat) (hi : i < (GenerateToken tIssue secret uid).length)
    (hv : v ≠ (GenerateToken tIssue secret uid).get ⟨i, hi⟩) :
    ParseToken now secret ((GenerateToken tIssue secret uid).set i v) =
        .error .InvalidSignature ∨
      ParseToken now secret ((GenerateToken tIssue secret uid).set i v) =
        .error .MalformedToken :=
  parse_set_one secret (genClaims tIssue uid) _ _ (encClaims_ne46 _)
    (mac_encClaims_ne46 _ _) (decClaims_encClaims _) rfl i v hi hv now

/-- Witness for C7: replacing byte 0 of a concrete issued token by 0 makes
verification fail. -/
theorem C7_single_change_rejected_witness :
    ParseToken 0 [5] ((GenerateToken 0 [5] 1).set 0 0) = .error .InvalidSignature ∨
      ParseToken 0 [5] ((GenerateToken 0 [5] 1).set 0 0) = .error .MalformedToken :=
  C7_single_change_rejected 1 [5] 0 0 0 0 (by decide) (by decide)

/-! ## The access gate: AuthMiddleware of internal/middleware -/

/-- The bytes of the scheme token "Bearer " including its trailing space. -/
def bearerTag : List Nat := [66, 101, 97, 114, 101, 114, 32]

/-- Outcome of the middleware for one request: either an aborted request
with an HTTP status and JSON error body (the downstream handler never
runs), or control passed to the downstream handler with the listed
context bindings (key, user id) published via c.Set. -/
inductive GateResult
  | reject (status : Nat) (body : String)
  | proceed (ctx : List (String × Nat))
deriving DecidableEq, Repr

/-- AuthMiddleware of the middleware package: reads the Authorization
header (empty list when the header is absent, as Go GetHeader returns the
empty string), rejects 401 unless the "Bearer " scheme token is an exact
byte-for-byte front of it, strips those 7 bytes, rejects 401 when
ParseToken fails, and otherwise stores the UserID claim in the request
context under the key "userID" and passes control on. -/
def AuthMiddleware (now : Int) (secret : List Nat) (authHeader : List Nat) : GateResult :=
  if authHeader = [] ∨ authHeader.take 7 ≠ bearerTag then
    .reject 401 "未提供Token"
  else
    match ParseToken now secret (authHeader.drop 7) with
    | .error _ => .reject 401 "Token无效或已过期"
    | .ok claims => .proceed [("userID", claims.UserID)]

/-- Claim C2: the gate rejects 401 and never reaches the downstream
handler when the header is absent or lacks the exact "Bearer " scheme
bytes, or when the stripped token fails verification; on success it
publishes exactly the token claims' user id under the fixed key "userID"
and passes control on. -/
theorem C2_access_gate (now : Int) (secret : List Nat) (h : List Nat) :
    (h = [] ∨ h.take 7 ≠ bearerTag →
      AuthMiddleware now secret h = .reject 401 "未提供Token") ∧
    (∀ e, h.take 7 = bearerTag → ParseToken now secret (h.drop 7) = .error e →
      AuthMiddleware now secret h = .reject 401 "Token无效或已过期") ∧
    (∀ c, h.take 7 = bearerTag → ParseToken now secret (h.drop 7) = .ok c →
      AuthMiddleware now secret h = .proceed [("userID", c.UserID)]) := by
  refine ⟨fun hc => ?_, fun e hb hp => ?_, fun c hb hp => ?_⟩
  · simp only [AuthMiddleware, if_pos hc]
  · have hcond : ¬(h = [] ∨ h.take 7 ≠ bearerTag) := by
      push_neg
      refine ⟨fun hnil => ?_, hb⟩
      rw [hnil] at hb
      simp [bearerTag] at hb
    simp only [AuthMiddleware, if_neg hcond, hp]
  · have hcond : ¬(h = [] ∨ h.take 7 ≠ bearerTag) := by
      push_neg
      refine ⟨fun hnil => ?_, hb⟩
      rw [hnil] at hb
      simp [bearerTag] at hb
    simp only [AuthMiddleware, if_neg hcond, hp]

/-- Witness for C2: a missing header, a junk token, and a freshly issued
token for subject 42, each at concrete inputs. -/
theorem C2_access_gate_witness :
    AuthMiddleware 0 [5] [] = .reject 401 "未提供Token" ∧
    AuthMiddleware 0 [5] (bearerTag ++ [0]) = .reject 401 "Token无效或已过期" ∧
    AuthMiddleware 0 [5] (bearerTag ++ GenerateToken 0 [5] 42) =
      .proceed [("userID", 42)] :=
  ⟨(C2_access_gate 0 [5] []).1 (Or.inl rfl),
   (C2_access_gate 0 [5] (bearerTag ++ [0])).2.1 TokenError.MalformedToken
     (by decide) (by decide),
   (C2_access_gate 0 [5] (bearerTag ++ GenerateToken 0 [5] 42)).2.2 (genClaims 0 42)
     (by decide) (by decide)⟩

/-! ## The login flows -/

/-- User of internal/models/user.go, restricted to the fields the login
flows read. Password holds the bcrypt digest. -/
structure User where
  ID : Nat
  Username : String
  Email : String
  Password : String
  Role : String
  Status : String
deriving DecidableEq, Repr

/-- UserStatusActive of internal/models/user.go. -/
def UserStatusActive : String := "active"

/-- IsActive of internal/models/user.go: Status equals "active". -/
def IsActive (u : User) : Bool := u.Status == UserStatusActive

/-- Modelled from the spec: the PasswordHasher digest constructor (bcrypt
GenerateFromPassword of x/crypto, external to this repository). Salting is
omitted, as no claim under verification depends on it. -/
def bcryptHash (plaintext : String) : String := "bcrypt." ++ plaintext

/-- Modelled from the spec: PasswordHasher.verify (bcrypt
CompareHashAndPassword of x/crypto, external to this repository): true
exactly when the plaintext matches the stored digest. -/
def bcryptVerify (digest plaintext : String) : Bool := digest == bcryptHash plaintext

/-- The login failure taxonomy of spec section 7. In the source these are
error strings: InvalidCredentials is 用户名或密码错误 (also used for the
not-found case), AccountDisabled is 用户账户已被禁用. -/
inductive LoginError
  | InvalidCredentials
  | AccountDisabled
deriving DecidableEq, Repr

/-- Login of internal/services/user_service.go (lines 151-180): look the
account up by username OR email, then check IsActive, then verify the
password digest, then best-effort UpdateLastLogin whose outcome
(`updateFails`) the source discards, then return the user. -/
def serviceLogin (db : List User) (updateFails : Bool) (username password : String) :
    Except LoginError User :=
  match db.find? (fun u => u.Username == username || u.Email == username) with
  | none => .error .InvalidCredentials
  | some user =>
    if ¬ IsActive user then .error .AccountDisabled
    else if ¬ bcryptVerify user.Password password then .error .InvalidCredentials
    else
      let _updateOutcome : Except String Unit :=
        if updateFails then .error "update failed" else .ok ()
      .ok user

/-- The LoginResponse JSON body of internal/controllers/auth_controller.go:
token string, type literal, expiresAt in Unix seconds, and the optional
user object (represented here by the user id; omitted in refresh
responses). -/
structure LoginResponse where
  token : List Nat
  type : String
  expiresAt : Int
  user : Option Nat
deriving DecidableEq, Repr

/-- HTTP outcome of the controller Login handler (400 parameter binding
and the unreachable 500 token-generation branch are out of model: the
model takes an already-bound request and GenerateToken never fails). -/
inductive LoginHttp
  | unauthorized (msg : String)
  | forbidden (msg : String)
  | ok (resp : LoginResponse)
deriving DecidableEq, Repr

/-- Login of internal/controllers/auth_controller.go (lines 55-133): look
the account up by username only, then verify the bcrypt password, then
check Status, then GenerateToken at the first clock reading `nowIssue`,
then best-effort UpdateUser whose outcome (`updateFails`) the source
discards, then answer 200 with the token, the literal type "Bearer", and
expiresAt computed from the second clock reading `nowResp` (the source
calls time.Now() again when building the response). -/
def controllerLogin (db : List User) (secret : List Nat) (nowIssue nowResp : Int)
    (updateFails : Bool) (username password : String) : LoginHttp :=
  match db.find? (fun u => u.Username == username) with
  | none => .unauthorized "用户名或密码错误"
  | some user =>
    if ¬ bcryptVerify user.Password password then .unauthorized "用户名或密码错误"
    else if user.Status ≠ "active" then .forbidden "账户已被禁用"
    else
      let _updateOutcome : Except String Unit :=
        if updateFails then .error "update failed" else .ok ()
      .ok { token := GenerateToken nowIssue secret user.ID
            type := "Bearer"
            expiresAt := nowResp + 86400
            user := some user.ID }

/-- True exactly on the 200 success outcome. -/
def isOkLogin : LoginHttp → Bool
  | .ok _ => true
  | _ => false

/-- A concrete suspended account used in concrete evaluations. -/
def aliceSuspended : User :=
  { ID := 1, Username := "alice", Email := "alice@shop.io",
    Password := bcryptHash "open sesame", Role := "user", Status := "suspended" }

/-- The same account with active status. -/
def aliceActive : User :=
  { ID := 1, Username := "alice", Email := "alice@shop.io",
    Password := bcryptHash "open sesame", Role := "user", Status := "active" }

/-- Counterexample to claim C3 as stated: in the controller Login the
password check runs before the status check, so a wrong password against
the suspended account yields the InvalidCredentials rejection (401), not
the AccountDisabled rejection (403) the claim requires. -/
theorem C3_counterexample :
    controllerLogin [aliceSuspended] [5] 0 0 false "alice" "wrong guess" =
      .unauthorized "用户名或密码错误" ∧
    controllerLogin [aliceSuspended] [5] 0 0 false "alice" "wrong guess" ≠
      .forbidden "账户已被禁用" := by
  constructor
  · rfl
  · decide

/-- Claim C3 amended: in the service-layer Login the status check does
precede password verification, so a non-active account fails with
AccountDisabled whatever the password; in the controller Login the order
is reversed, so a non-active account yields InvalidCredentials on a wrong
password and AccountDisabled only on a correct one. -/
theorem C3_amended_status_order :
    (∀ (db : List User) (updateFails : Bool) (ident pw : String) (u : User),
      db.find? (fun v => v.Username == ident || v.Email == ident) = some u →
      IsActive u = false →
      serviceLogin db updateFails ident pw = .error .AccountDisabled) ∧
    (∀ (db : List User) (secret : List Nat) (t1 t2 : Int) (updateFails : Bool)
      (un pw : String) (u : User),
      db.find? (fun v => v.Username == un) = some u →
      IsActive u = false → bcryptVerify u.Password pw = false →
      controllerLogin db secret t1 t2 updateFails un pw =
        .unauthorized "用户名或密码错误") ∧
    (∀ (db : List User) (secret : List Nat) (t1 t2 : Int) (updateFails : Bool)
      (un pw : String) (u : User),
      db.find? (fun v => v.Username == un) = some u →
      IsActive u = false → bcryptVerify u.Password pw = true →
      controllerLogin db secret t1 t2 updateFails un pw =
        .forbidden "账户已被禁用") := by
  refine ⟨fun db upd ident pw u hf hs => ?_, fun db s t1 t2 upd un pw u hf hs hb => ?_,
    fun db s t1 t2 upd un pw u hf hs hb => ?_⟩
  · simp only [serviceLogin, hf]
    rw [if_pos (by simp [hs])]
  · simp only [controllerLogin, hf]
    rw [if_pos (by simp [hb])]
  · have hstat : u.Status ≠ "active" := by
      simpa [IsActive, UserStatusActive] using hs
    simp only [controllerLogin, hf]
    rw [if_neg (by simp [hb]), if_pos hstat]

/-- Witness for the amended C3 on the concrete suspended account. -/
theorem C3_amended_status_order_witness :
    serviceLogin [aliceSuspended] false "alice" "wrong guess" =
      .error .AccountDisabled ∧
    controllerLogin [aliceSuspended] [5] 0 0 false "alice" "wrong guess" =
      .unauthorized "用户名或密码错误" ∧
    controllerLogin [aliceSuspended] [5] 0 0 false "alice" "open sesame" =
      .forbidden "账户已被禁用" :=
  ⟨C3_amended_status_order.1 [aliceSuspended] false "alice" "wrong guess"
      aliceSuspended (by decide) (by decide),
   C3_amended_status_order.2.1 [aliceSuspended] [5] 0 0 false "alice" "wrong guess"
      aliceSuspended (by decide) (by decide) (by decide),
   C3_amended_status_order.2.2 [aliceSuspended] [5] 0 0 false "alice" "open sesame"
      aliceSuspended (by decide) (by decide) (by decide)⟩

/-- Counterexample to claim C4 as stated: the controller Login looks the
account up by username only, so a login that presents the email address of
the active account with the correct password is rejected 401 rather than
succeeding. -/
theorem C4_counterexample :
    controllerLogin [aliceActive] [5] 0 0 false "alice@shop.io" "open sesame" =
      .unauthorized "用户名或密码错误" ∧
    isOkLogin (controllerLogin [aliceActive] [5] 0 0 false "alice@shop.io" "open sesame")
      = false := by
  constructor
  · rfl
  · rfl

/-- Claim C4 amended: the service-layer Login accepts either the username
or the email address (its store query matches both) and yields
InvalidCredentials when the identifier matches no account; the controller
Login looks up by username only, so an email identifier is rejected there
with the InvalidCredentials message. -/
theorem C4_amended_identifier :
    (∀ (db : List User) (updateFails : Bool) (ident pw : String) (u : User),
      db.find? (fun v => v.Username == ident || v.Email == ident) = some u →
      IsActive u = true → bcryptVerify u.Password pw = true →
      serviceLogin db updateFails ident pw = .ok u) ∧
    (∀ (db : List User) (updateFails : Bool) (ident pw : String),
      db.find? (fun v => v.Username == ident || v.Email == ident) = none →
      serviceLogin db updateFails ident pw = .error .InvalidCredentials) ∧
    (∀ (db : List User) (secret : List Nat) (t1 t2 : Int) (updateFails : Bool)
      (ident pw : String),
      db.find? (fun v => v.Username == ident) = none →
      controllerLogin db secret t1 t2 updateFails ident pw =
        .unauthorized "用户名或密码错误") := by
  refine ⟨fun db upd ident pw u hf ha hb => ?_, fun db upd ident pw hf => ?_,
    fun db s t1 t2 upd ident pw hf => ?_⟩
  · simp only [serviceLogin, hf]
    rw [if_neg (by simp [ha]), if_neg (by simp [hb])]
  · simp only [serviceLogin, hf]
  · simp only [controllerLogin, hf]

/-- Witness for the amended C4: email login succeeds at the service layer,
an unknown identifier fails with InvalidCredentials, and the controller
rejects an unknown username. -/
theorem C4_amended_identifier_witness :
    serviceLogin [aliceActive] false "alice@shop.io" "open sesame" = .ok aliceActive ∧
    serviceLogin [aliceActive] false "nobody" "open sesame" =
      .error .InvalidCredentials ∧
    controllerLogin [aliceActive] [5] 0 0 false "nobody" "open sesame" =
      .unauthorized "用户名或密码错误" :=
  ⟨C4_amended_identifier.1 [aliceActive] false "alice@shop.io" "open sesame"
      aliceActive (by decide) (by decide) (by decide),
   C4_amended_identifier.2.1 [aliceActive] false "nobody" "open sesame" (by decide),
   C4_amended_identifier.2.2 [aliceActive] [5] 0 0 false "nobody" "open sesame"
      (by decide)⟩

/-- Counterexample to claim C8 as stated: the controller computes the
response expiresAt from a second clock reading taken after token issuance
(time.Now() again at response construction). With issuance clock 0 and
response clock 1, the response carries expiresAt 86401 while the token it
returns embeds ExpiresAt 86400, so the two differ. -/
theorem C8_counterexample :
    controllerLogin [aliceActive] [5] 0 1 false "alice" "open sesame" =
      .ok { token := GenerateToken 0 [5] 1, type := "Bearer",
            expiresAt := 86401, user := some 1 } ∧
    ParseToken 0 [5] (GenerateToken 0 [5] 1) = .ok (genClaims 0 1) ∧
    (genClaims 0 1).ExpiresAt = 86400 ∧ (86401 : Int) ≠ 86400 := by
  refine ⟨rfl, by decide, rfl, by decide⟩

/-- Claim C8 amended: the success response carries the issued token, the
literal type "Bearer", and expiresAt equal to the response-time clock
reading plus 24 hours; that value equals the ExpiresAt embedded in the
returned token exactly when no time elapses between the issuance clock
reading and the response clock reading. -/
theorem C8_amended_response_shape (db : List User) (secret : List Nat)
    (t1 t2 : Int) (updateFails : Bool) (un pw : String) (u : User)
    (hf : db.find? (fun v => v.Username == un) = some u)
    (hb : bcryptVerify u.Password pw = true)
    (hs : u.Status = "active") :
    controllerLogin db secret t1 t2 updateFails un pw =
      .ok { token := GenerateToken t1 secret u.ID, type := "Bearer",
            expiresAt := t2 + 86400, user := some u.ID } ∧
    (genClaims t1 u.ID).ExpiresAt = t1 + 86400 ∧
    (t1 = t2 → t2 + 86400 = (genClaims t1 u.ID).ExpiresAt) := by
  refine ⟨?_, rfl, fun he => by rw [he]; rfl⟩
  simp only [controllerLogin, hf]
  rw [if_neg (by simp [hb]), if_neg (by simp [hs])]

/-- Witness for the amended C8 at concrete clocks 0 and 1. -/
theorem C8_amended_response_shape_witness :
    controllerLogin [aliceActive] [5] 0 1 false "alice" "open sesame" =
      .ok { token := GenerateToken 0 [5] 1, type := "Bearer",
            expiresAt := 86401, user := some 1 } ∧
    (genClaims 0 1).ExpiresAt = 0 + 86400 ∧
    ((0 : Int) = 1 → 1 + 86400 = (genClaims 0 1).ExpiresAt) :=
  C8_amended_response_shape [aliceActive] [5] 0 1 false "alice" "open sesame"
    aliceActive (by decide) (by decide) (by decide)

/-- Claim C9: the last-login update is best-effort in both login
implementations: the outcome of a login never depends on whether that
update fails, and when lookup, status and password checks pass, the login
succeeds for either value of the update outcome. -/
theorem C9_best_effort_last_login (db : List User) (secret : List Nat)
    (t1 t2 : Int) (un pw : String) (u : User) :
    (controllerLogin db secret t1 t2 true un pw =
      controllerLogin db secret t1 t2 false un pw) ∧
    (serviceLogin db true un pw = serviceLogin db false un pw) ∧
    (db.find? (fun v => v.Username == un) = some u →
      bcryptVerify u.Password pw = true → u.Status = "active" →
      ∀ updateFails, isOkLogin (controllerLogin db secret t1 t2 updateFails un pw)
        = true) ∧
    (db.find? (fun v => v.Username == un || v.Email == un) = some u →
      IsActive u = true → bcryptVerify u.Password pw = true →
      ∀ updateFails, serviceLogin db updateFails un pw = .ok u) := by
  refine ⟨rfl, rfl, fun hf hb hs upd => ?_, fun hf ha hb upd => ?_⟩
  · simp only [controllerLogin, hf]
    rw [if_neg (by simp [hb]), if_neg (by simp [hs])]
    rfl
  · simp only [serviceLogin, hf]
    rw [if_neg (by simp [ha]), if_neg (by simp [hb])]

/-- Witness for C9 on the concrete active account. -/
theorem C9_best_effort_last_login_witness :
    (controllerLogin [aliceActive] [5] 0 0 true "alice" "open sesame" =
      controllerLogin [aliceActive] [5] 0 0 false "alice" "open sesame") ∧
    (serviceLogin [aliceActive] true "alice" "open sesame" =
      serviceLogin [aliceActive] false "alice" "open sesame") ∧
    isOkLogin (controllerLogin [aliceActive] [5] 0 0 true "alice" "open sesame")
      = true ∧
    serviceLogin [aliceActive] true "alice" "open sesame" = .ok aliceActive :=
  ⟨(C9_best_effort_last_login [aliceActive] [5] 0 0 "alice" "open sesame"
      aliceActive).1,
   (C9_best_effort_last_login [aliceActive] [5] 0 0 "alice" "open sesame"
      aliceActive).2.1,
   (C9_best_effort_last_login [aliceActive] [5] 0 0 "alice" "open sesame"
      aliceActive).2.2.1 (by decide) (by decide) (by decide) true,
   (C9_best_effort_last_login [aliceActive] [5] 0 0 "alice" "open sesame"
      aliceActive).2.2.2 (by decide) (by decide) (by decide) true⟩

/-! ## RefreshToken of internal/controllers/auth_controller.go -/

/-- HTTP outcome of the RefreshToken handler. `panicked` embeds the Go
runtime panic that the slice expression authHeader[7:] raises when the
header is shorter than 7 bytes (Go slice bounds: s[7:] is legal only for
len(s) at least 7). -/
inductive RefreshHttp
  | panicked
  | unauthorized (msg : String)
  | ok (resp : LoginResponse)
deriving DecidableEq, Repr

/-- RefreshToken of internal/controllers/auth_controller.go (lines
147-190): 401 when the header is absent; otherwise it slices
authHeader[7:] with no length or scheme check, which panics for headers of
fewer than 7 bytes; then parses the token (401 on failure) and answers 200
with a fresh token for the same user id. The three clock readings are the
parse-time, issue-time and response-time calls the source makes. -/
def RefreshToken (nowParse nowIssue nowResp : Int) (secret : List Nat)
    (authHeader : List Nat) : RefreshHttp :=
  if authHeader = [] then .unauthorized "缺少认证token"
  else if authHeader.length < 7 then .panicked
  else
    match ParseToken nowParse secret (authHeader.drop 7) with
    | .error _ => .unauthorized "token无效"
    | .ok claims =>
      .ok { token := GenerateToken nowIssue secret claims.UserID
            type := "Bearer"
            expiresAt := nowResp + 86400
            user := none }

/-- Claim C10: for every non-empty Authorization header shorter than 7
bytes the RefreshToken handler panics on the unchecked authHeader slice
instead of answering 401. -/
theorem C10_short_header_panics (nowParse nowIssue nowResp : Int)
    (secret : List Nat) (h : List Nat) (h1 : h ≠ []) (h2 : h.length < 7) :
    RefreshToken nowParse nowIssue nowResp secret h = .panicked := by
  simp only [RefreshToken, if_neg h1, if_pos h2]

/-- Witness for C10: the one-byte header "B" makes the handler panic. -/
theorem C10_short_header_panics_witness :
    RefreshToken 0 0 0 [5] [66] = .panicked :=
  C10_short_header_panics 0 0 0 [5] [66] (by decide) (by decide)

end MerchantAdmin
